import Mathlib

/-!
Verification of the condition-evaluation engine of `spring-core/spring-condition.go`
(repository Luzhanzhao/go-spring), via a shallow embedding.

Go `panic(...)` during evaluation is modelled by the error monad `Except GoError`:
a Go method that returns `bool` but may panic becomes a Lean function returning
`Except GoError Bool`.  Go `interface{}` values that are only constructed,
compared with `==`, or rendered as text are modelled by the inductive `Value`.
The external collaborators of the engine (the `SpringContext` interface, and the
Go constant-expression evaluator `types.Eval` used by `propertyValueCondition`)
are modelled as explicit function parameters, since their code is outside this
repository.
-/

/-- Go `interface{}` values as used by the condition engine: only construction,
`==` comparison and textual rendering (`cast.ToString`) are needed. -/
inductive Value where
  | VStr  (s : String)
  | VInt  (n : Int)
  | VBool (b : Bool)
  deriving DecidableEq, Repr

/-- Model of `cast.ToString` restricted to the `Value` universe: the textual
form of a Go value (decimal for ints, `true`/`false` for bools, identity on
strings). -/
def castToString : Value → String
  | .VStr s  => s
  | .VInt n  => toString n
  | .VBool b => if b then "true" else "false"

/-- The read-only context capability required by the engine
(Go interface `SpringContext`, restricted to the four operations the
conditions use): `GetPrefixProperties`, `GetDefaultProperty`, `FindBean`
(only its `ok` flag is consumed) and `GetProfile`. -/
structure SpringContext where
  getPrefixProperties : String → List String
  getDefaultProperty  : String → Value → Value × Bool
  findBean            : Value → Bool
  getProfile          : String

/-- The evaluation-time panics of `spring-condition.go`, by their messages. -/
inductive GoError where
  /-- Panic `errors.New("last op need a cond triggered")`. -/
  | lastOpNeedCond
  /-- Panic `errors.New("error condition op mode")`. -/
  | errorConditionOpMode
  /-- Panic `errors.New("no condition")`. -/
  | noCondition
  /-- Panic `errors.New(SpringConst.UNIMPLEMENTED_METHOD)`. -/
  | unimplementedMethod
  /-- Panic `err` after a failed `types.Eval`. -/
  | evalError (msg : String)
  deriving DecidableEq, Repr

/-- The Go `Condition` interface: `Matches(ctx SpringContext) bool`, which may
panic — hence `Except GoError Bool`. -/
abbrev Condition := SpringContext → Except GoError Bool

/-- Type `ConditionOp` is a Go `int` type. -/
abbrev ConditionOp := Int

/-- Constant `ConditionOr = ConditionOp(1)` — at least one must hold. -/
def ConditionOr : ConditionOp := 1
/-- Constant `ConditionAnd = ConditionOp(2)` — all must hold. -/
def ConditionAnd : ConditionOp := 2
/-- Constant `ConditionNone = ConditionOp(3)` — none may hold. -/
def ConditionNone : ConditionOp := 3

/-- Go struct `functionCondition { fn ConditionFunc }` where
`ConditionFunc = func(ctx SpringContext) bool`. -/
structure functionCondition where
  fn : SpringContext → Bool

/-- Constructor `NewFunctionCondition`. -/
def NewFunctionCondition (fn : SpringContext → Bool) : functionCondition := ⟨fn⟩

/-- Go `func (c *functionCondition) Matches(ctx SpringContext) bool { return c.fn(ctx) }`. -/
def functionCondition.Matches (c : functionCondition) (ctx : SpringContext) :
    Except GoError Bool := .ok (c.fn ctx)

/-- Go struct `propertyCondition { name string }`. -/
structure propertyCondition where
  name : String

/-- Constructor `NewPropertyCondition`. -/
def NewPropertyCondition (name : String) : propertyCondition := ⟨name⟩

/-- Go `return len(ctx.GetPrefixProperties(c.name)) > 0`. -/
def propertyCondition.Matches (c : propertyCondition) (ctx : SpringContext) :
    Except GoError Bool :=
  .ok (decide (0 < (ctx.getPrefixProperties c.name).length))

/-- Go struct `missingPropertyCondition { name string }`. -/
structure missingPropertyCondition where
  name : String

/-- Constructor `NewMissingPropertyCondition`. -/
def NewMissingPropertyCondition (name : String) : missingPropertyCondition := ⟨name⟩

/-- Go `return len(ctx.GetPrefixProperties(c.name)) == 0`. -/
def missingPropertyCondition.Matches (c : missingPropertyCondition)
    (ctx : SpringContext) : Except GoError Bool :=
  .ok (decide ((ctx.getPrefixProperties c.name).length = 0))

/-- Go struct `beanCondition { selector interface{} }`. -/
structure beanCondition where
  selector : Value

/-- Constructor `NewBeanCondition`. -/
def NewBeanCondition (selector : Value) : beanCondition := ⟨selector⟩

/-- Go `_, ok := ctx.FindBean(c.selector); return ok`. -/
def beanCondition.Matches (c : beanCondition) (ctx : SpringContext) :
    Except GoError Bool :=
  .ok (ctx.findBean c.selector)

/-- Go struct `missingBeanCondition { selector interface{} }`. -/
structure missingBeanCondition where
  selector : Value

/-- Constructor `NewMissingBeanCondition`. -/
def NewMissingBeanCondition (selector : Value) : missingBeanCondition := ⟨selector⟩

/-- Go `_, ok := ctx.FindBean(c.selector); return !ok`. -/
def missingBeanCondition.Matches (c : missingBeanCondition) (ctx : SpringContext) :
    Except GoError Bool :=
  .ok (!ctx.findBean c.selector)

/-- Go struct `propertyValueCondition { name string; havingValue interface{} }`. -/
structure propertyValueCondition where
  name        : String
  havingValue : Value

/-- Constructor `NewPropertyValueCondition`. -/
def NewPropertyValueCondition (name : String) (havingValue : Value) :
    propertyValueCondition := ⟨name, havingValue⟩

/-- Go `func (c *propertyValueCondition) Matches(ctx SpringContext) bool`.
`evalExpr` models the external `types.Eval` collaborator: on success it yields
`ret.Value.String()`, on failure the error that the Go code re-panics.

```go
val, ok := ctx.GetDefaultProperty(c.name, "")
if !ok { return false }
expectValue, ok := c.havingValue.(string)
if !ok { return val == c.havingValue }
if ok = strings.Contains(expectValue, "$"); !ok { return val == expectValue }
expr := strings.Replace(expectValue, "$", cast.ToString(val), -1)
if ret, err := types.Eval(...); err == nil { return ret.Value.String() == "true" }
else { panic(err) }
``` -/
def propertyValueCondition.Matches (c : propertyValueCondition)
    (evalExpr : String → Except String String) (ctx : SpringContext) :
    Except GoError Bool :=
  let (val, ok) := ctx.getDefaultProperty c.name (.VStr "")
  if !ok then .ok false
  else
    match c.havingValue with
    | .VStr expectValue =>
      if !expectValue.contains '$' then .ok (decide (val = .VStr expectValue))
      else
        let expr := expectValue.replace "$" (castToString val)
        match evalExpr expr with
        | .ok out   => .ok (decide (out = "true"))
        | .error e  => .error (.evalError e)
    | hv => .ok (decide (val = hv))

/-- Go struct `conditions { op ConditionOp; cond []Condition }`. -/
structure conditions where
  op   : ConditionOp
  cond : List Condition

/-- Constructor `NewConditions`. -/
def NewConditions (op : ConditionOp) (cond : List Condition) : conditions :=
  ⟨op, cond⟩

/-- The `case ConditionOr` loop of `conditions.Matches`: first member to
match returns `true`; exhausting the list returns `false`. -/
def conditionsOr : List Condition → SpringContext → Except GoError Bool
  | [], _ => .ok false
  | c0 :: rest, ctx =>
    match c0 ctx with
    | .error e  => .error e
    | .ok true  => .ok true
    | .ok false => conditionsOr rest ctx

/-- The `case ConditionAnd` loop of `conditions.Matches`: first member to
fail returns `false`; exhausting the list returns `true`. -/
def conditionsAnd : List Condition → SpringContext → Except GoError Bool
  | [], _ => .ok true
  | c0 :: rest, ctx =>
    match c0 ctx with
    | .error e  => .error e
    | .ok false => .ok false
    | .ok true  => conditionsAnd rest ctx

/-- The `case ConditionNone` loop of `conditions.Matches`: first member to
match returns `false`; exhausting the list returns `true`. -/
def conditionsNone : List Condition → SpringContext → Except GoError Bool
  | [], _ => .ok true
  | c0 :: rest, ctx =>
    match c0 ctx with
    | .error e  => .error e
    | .ok true  => .ok false
    | .ok false => conditionsNone rest ctx

/-- Go `func (c *conditions) Matches(ctx SpringContext) bool`: empty-group check
first (`panic("no condition")`), then dispatch on the operator, panicking on
an operator outside the enumeration. -/
def conditions.Matches (c : conditions) (ctx : SpringContext) :
    Except GoError Bool :=
  if c.cond.length = 0 then .error .noCondition
  else if c.op = ConditionOr then conditionsOr c.cond ctx
  else if c.op = ConditionAnd then conditionsAnd c.cond ctx
  else if c.op = ConditionNone then conditionsNone c.cond ctx
  else .error .errorConditionOpMode

/-- Go struct `conditionNode { cond Condition; op ConditionOp; next *conditionNode }`.
The nil-terminated singly-linked list is embedded with two constructors:
`last` is a node whose `next` pointer is nil, `cons` one whose `next` is the
given node.  `cond` is `Option`al since the Go interface field may be nil. -/
inductive ConditionNode where
  | last (cond : Option Condition) (op : ConditionOp)
  | cons (cond : Option Condition) (op : ConditionOp) (next : ConditionNode)

/-- The `cond` field of a node. -/
def ConditionNode.cond : ConditionNode → Option Condition
  | .last c _   => c
  | .cons c _ _ => c

/-- The `op` field of a node. -/
def ConditionNode.op : ConditionNode → ConditionOp
  | .last _ o   => o
  | .cons _ o _ => o

/-- The `next` field of a node (`none` = nil pointer). -/
def ConditionNode.next : ConditionNode → Option ConditionNode
  | .last _ _   => none
  | .cons _ _ n => some n

/-- Go `func (c *conditionNode) Matches(ctx SpringContext) bool`:

```go
if c.cond == nil { return true }
if c.next != nil && c.next.cond == nil { panic("last op need a cond triggered") }
if r := c.cond.Matches(ctx); c.next != nil {
    switch c.op {
    case ConditionOr:  if r { return r } else { return c.next.Matches(ctx) }
    case ConditionAnd: if r { return c.next.Matches(ctx) } else { return false }
    default: panic("error condition op mode")
    }
} else { return r }
``` -/
def ConditionNode.Matches : ConditionNode → SpringContext → Except GoError Bool
  | .last none _, _ => .ok true
  | .cons none _ _, _ => .ok true
  | .last (some cond) _, ctx => cond ctx
  | .cons (some cond) op next, ctx =>
    match next.cond with
    | none => .error .lastOpNeedCond
    | some _ =>
      match cond ctx with
      | .error e => .error e
      | .ok r =>
        if op = ConditionOr then
          if r then .ok true else next.Matches ctx
        else if op = ConditionAnd then
          if r then next.Matches ctx else .ok false
        else .error .errorConditionOpMode

/-- Go struct `Conditional { head *conditionNode; curr *conditionNode }`.

The mutable pointer structure is embedded as a zipper: `finished` lists the
`(cond, op)` pairs of the nodes strictly before the cursor (their `op` and
`next` fields have been set by `Or`/`And` calls), and `currCond` is the
cursor node's `cond` field.  In every state reachable by the builder's
operations the cursor node's `op` is the zero value `0` and its `next` is
nil, so those two fields need no representation.  `head == curr` holds
exactly when `finished` is empty. -/
structure Conditional where
  finished : List (Option Condition × ConditionOp)
  currCond : Option Condition

/-- Rebuild the linked chain from head to cursor: each finished link becomes
a `cons` node, the cursor becomes the terminal node with zero-value `op`. -/
def toNode : List (Option Condition × ConditionOp) → Option Condition → ConditionNode
  | [], c => .last c 0
  | (c0, op) :: rest, c => .cons c0 op (toNode rest c)

/-- Constructor `NewConditional`: a single fresh empty node, `head == curr`. -/
def NewConditional : Conditional := ⟨[], none⟩

/-- Go `func (c *Conditional) Empty() bool { return c.head == c.curr }`. -/
def Conditional.Empty (c : Conditional) : Bool := c.finished.isEmpty

/-- The node the `head` pointer designates. -/
def Conditional.headNode (c : Conditional) : ConditionNode :=
  toNode c.finished c.currCond

/-- Go `func (c *Conditional) Matches(ctx SpringContext) bool { return c.head.Matches(ctx) }`. -/
def Conditional.Matches (c : Conditional) (ctx : SpringContext) :
    Except GoError Bool :=
  c.headNode.Matches ctx

/-- Method `Or()`: set the cursor's op to `ConditionOr`, link a fresh empty node,
advance the cursor to it. -/
def Conditional.Or (c : Conditional) : Conditional :=
  ⟨c.finished ++ [(c.currCond, ConditionOr)], none⟩

/-- Method `And()`: set the cursor's op to `ConditionAnd`, link a fresh empty node,
advance the cursor to it. -/
def Conditional.And (c : Conditional) : Conditional :=
  ⟨c.finished ++ [(c.currCond, ConditionAnd)], none⟩

/-- Method `OnCondition(cond)`: `if c.curr.cond != nil { c.And() }; c.curr.cond = cond`. -/
def Conditional.OnCondition (c : Conditional) (cond : Condition) : Conditional :=
  let c1 := if c.currCond.isSome then c.And else c
  { c1 with currCond := some cond }

/-- A condition that matches every context (a `functionCondition` over the
constant-true predicate), used to instantiate theorems at concrete inputs. -/
def condTrue : Condition := (NewFunctionCondition (fun _ => true)).Matches

/-- A condition that matches no context. -/
def condFalse : Condition := (NewFunctionCondition (fun _ => false)).Matches

/-- A concrete context: one property under prefix `"a"`, property
`"threads"` bound to the integer `8`, a bean `"cache"`, empty profile. -/
def testCtx : SpringContext where
  getPrefixProperties := fun p => if p = "a" then ["a.x"] else []
  getDefaultProperty  := fun n d => if n = "threads" then (.VInt 8, true) else (d, false)
  findBean            := fun s => decide (s = .VStr "cache")
  getProfile          := ""

/-- A concrete stand-in for the external expression evaluator that accepts
every expression with output `"true"`. -/
def evalOkStub : String → Except String String := fun _ => .ok "true"

/-- A concrete stand-in for the external expression evaluator that rejects
every expression. -/
def evalErrStub : String → Except String String := fun _ => .error "unsupported"

/-- A `Conditional` whose head node carries a nil condition evaluates to
`true` regardless of everything after the head. -/
theorem matches_of_head_cond_none (c : Conditional) (op0 : ConditionOp)
    (rest : List (Option Condition × ConditionOp))
    (h : c.finished = (none, op0) :: rest) (ctx : SpringContext) :
    c.Matches ctx = .ok true := by
  simp [Conditional.Matches, Conditional.headNode, h, toNode, ConditionNode.Matches]

/-- Attaching any sequence of conditions leaves a nil-condition head link in
place: `OnCondition` only ever touches the cursor and the links it appends. -/
theorem foldl_onCondition_finished_head (l : List Condition) (c : Conditional)
    (op0 : ConditionOp) (rest : List (Option Condition × ConditionOp))
    (h : c.finished = (none, op0) :: rest) :
    ∃ rest1, (l.foldl Conditional.OnCondition c).finished = (none, op0) :: rest1 := by
  induction l generalizing c rest with
  | nil => exact ⟨rest, h⟩
  | cons a t ih =>
    simp only [List.foldl_cons]
    by_cases hc : c.currCond.isSome = true
    · exact ih (c.OnCondition a) (rest ++ [(c.currCond, ConditionAnd)])
        (by simp [Conditional.OnCondition, hc, Conditional.And, h])
    · exact ih (c.OnCondition a) rest (by simp [Conditional.OnCondition, hc, h])

/-- Claim C6: a freshly constructed `Conditional` with no condition attached
evaluates to `true` for every context, with no error. -/
theorem C6_empty_conditional_matches (ctx : SpringContext) :
    NewConditional.Matches ctx = .ok true := rfl

/-- Claim C2: `A.and()` evaluated without ever attaching a condition after the
operator yields the fatal dangling-operator error instead of a boolean;
generally, any node whose next node exists but holds no condition is a fatal
evaluation-time error. -/
theorem C2_dangling_operator_error (a : Condition) (ctx : SpringContext) :
    (NewConditional.OnCondition a).And.Matches ctx = .error .lastOpNeedCond ∧
    (∀ (op : ConditionOp) (n : ConditionNode), n.cond = none →
      (ConditionNode.cons (some a) op n).Matches ctx = .error .lastOpNeedCond) := by
  refine ⟨rfl, fun op n hn => ?_⟩
  simp [ConditionNode.Matches, hn]

theorem C2_dangling_operator_error_witness :
    (NewConditional.OnCondition condTrue).And.Matches testCtx = .error .lastOpNeedCond ∧
    (ConditionNode.cons (some condTrue) ConditionOr
        (ConditionNode.last none 0)).Matches testCtx = .error .lastOpNeedCond := by
  have h := C2_dangling_operator_error condTrue testCtx
  exact ⟨h.1, h.2 ConditionOr (ConditionNode.last none 0) rfl⟩

/-- Claim C9: `Or()`/`And()` on a fresh `Conditional` leaves the head node with
no condition but a non-nil next node; `Matches` then returns `true` for every
context, silently ignoring every condition attached afterwards. -/
theorem C9_operator_first_chain_always_true (a : Condition) (ctx : SpringContext)
    (l : List Condition) :
    (NewConditional.And).headNode.cond = none ∧
    (NewConditional.And).headNode.next.isSome = true ∧
    (NewConditional.Or).headNode.cond = none ∧
    (NewConditional.Or).headNode.next.isSome = true ∧
    (l.foldl Conditional.OnCondition NewConditional.And).Matches ctx = .ok true ∧
    (l.foldl Conditional.OnCondition NewConditional.Or).Matches ctx = .ok true ∧
    (NewConditional.And.OnCondition a).Matches ctx = .ok true := by
  refine ⟨rfl, rfl, rfl, rfl, ?_, ?_, rfl⟩
  · obtain ⟨rest1, h1⟩ :=
      foldl_onCondition_finished_head l NewConditional.And ConditionAnd [] rfl
    exact matches_of_head_cond_none _ _ _ h1 ctx
  · obtain ⟨rest1, h1⟩ :=
      foldl_onCondition_finished_head l NewConditional.Or ConditionOr [] rfl
    exact matches_of_head_cond_none _ _ _ h1 ctx

/-- Claim C10: the dangling-operator check is lazy.  For `a.or(b).and()` —
a trailing operator with no final condition — if `a` matches, `Matches`
short-circuits to `true` and no error is raised; if `a` does not match,
evaluation reaches the node before the empty tail and raises the error. -/
theorem C10_lazy_dangling_check (a b : Condition) (ctx : SpringContext)
    (ra : Bool) (ha : a ctx = .ok ra) :
    (ra = true →
      ((NewConditional.OnCondition a).Or.OnCondition b).And.Matches ctx = .ok true) ∧
    (ra = false →
      ((NewConditional.OnCondition a).Or.OnCondition b).And.Matches ctx
        = .error .lastOpNeedCond) := by
  constructor <;> intro hr <;> subst hr <;>
    simp [Conditional.Matches, Conditional.headNode, Conditional.OnCondition,
      Conditional.Or, Conditional.And, NewConditional, toNode, ConditionNode.Matches,
      ha, ConditionOr, ConditionAnd, ConditionNode.cond]

theorem C10_lazy_dangling_check_witness :
    ((NewConditional.OnCondition condTrue).Or.OnCondition condFalse).And.Matches testCtx
      = .ok true :=
  (C10_lazy_dangling_check condTrue condFalse testCtx true rfl).1 rfl

/-- Claim C5: `OnCondition` on a cursor that already holds a condition first
appends an implicit AND link, then sets the condition on the new cursor;
consequently two successive `OnCondition` calls on a fresh `Conditional`
evaluate as the short-circuit conjunction of the two conditions. -/
theorem C5_implicit_and (a b d : Condition) (c : Conditional) (ctx : SpringContext)
    (ra : Bool) (hc : c.currCond.isSome = true) (ha : a ctx = .ok ra) :
    (c.OnCondition d).finished = c.finished ++ [(c.currCond, ConditionAnd)] ∧
    (c.OnCondition d).currCond = some d ∧
    ((NewConditional.OnCondition a).OnCondition b).Matches ctx
      = (if ra then b ctx else .ok false) := by
  refine ⟨by simp [Conditional.OnCondition, hc, Conditional.And],
    by simp [Conditional.OnCondition], ?_⟩
  simp [Conditional.Matches, Conditional.headNode, Conditional.OnCondition,
    NewConditional, Conditional.And, toNode, ConditionNode.Matches, ha,
    ConditionAnd, ConditionOr, ConditionNode.cond]

theorem C5_implicit_and_witness :
    ((NewConditional.OnCondition condTrue).OnCondition condFalse).Matches testCtx
      = .ok false ∧
    ((NewConditional.OnCondition condTrue).OnCondition condFalse).finished
      = [(some condTrue, ConditionAnd)] := by
  have h := C5_implicit_and condTrue condFalse condFalse
    (NewConditional.OnCondition condTrue) testCtx true rfl rfl
  refine ⟨?_, ?_⟩
  · rw [h.2.2]; rfl
  · simpa using h.1

/-- Claim C4 (the failing behaviour, evaluated): after the first condition is
attached to a fresh `Conditional`, the head and cursor pointers still
coincide, so `Empty()` — which compares only the two pointers — still
returns `true`, although a condition has been attached. -/
theorem C4_empty_after_first_attach (a : Condition) :
    (NewConditional.OnCondition a).Empty = true ∧
    (NewConditional.OnCondition a).currCond = some a := ⟨rfl, rfl⟩

/-- Claim C1: at a chain node holding condition `a` whose next node holds a
condition: with OR, if `a` matches the whole chain is `true` without the
remainder being consulted, otherwise the result is the remainder's; with
AND, if `a` matches the result is the remainder's, otherwise `false`
without the remainder being consulted — strict left-to-right evaluation. -/
theorem C1_chain_or_and_semantics (a : Condition) (n : ConditionNode)
    (ctx : SpringContext) (ra : Bool)
    (hn : n.cond.isSome = true) (ha : a ctx = .ok ra) :
    (ConditionNode.cons (some a) ConditionOr n).Matches ctx
      = (if ra then .ok true else n.Matches ctx) ∧
    (ConditionNode.cons (some a) ConditionAnd n).Matches ctx
      = (if ra then n.Matches ctx else .ok false) := by
  obtain ⟨x, hx⟩ := Option.isSome_iff_exists.mp hn
  constructor <;> simp [ConditionNode.Matches, hx, ha, ConditionOr, ConditionAnd]

theorem C1_chain_or_and_semantics_witness :
    (ConditionNode.cons (some condTrue) ConditionOr
        (ConditionNode.last (some condFalse) 0)).Matches testCtx = .ok true ∧
    (ConditionNode.cons (some condTrue) ConditionAnd
        (ConditionNode.last (some condFalse) 0)).Matches testCtx = .ok false := by
  have h := C1_chain_or_and_semantics condTrue
    (ConditionNode.last (some condFalse) 0) testCtx true rfl rfl
  exact ⟨by rw [h.1]; rfl, by rw [h.2]; rfl⟩

/-- The `NONE` loop over pure boolean members returns `true` exactly when no
member matches. -/
theorem conditionsNone_map_function (fs : List (SpringContext → Bool))
    (ctx : SpringContext) :
    conditionsNone (fs.map fun f => (NewFunctionCondition f).Matches) ctx
      = .ok (fs.all fun f => !f ctx) := by
  induction fs with
  | nil => rfl
  | cons f t ih =>
    simp only [List.map_cons, conditionsNone, NewFunctionCondition,
      functionCondition.Matches] at ih ⊢
    cases hf : f ctx <;> simp [hf, ih]

/-- Claim C7: a condition group with operator `NONE` is `true` iff no member
matches; a group constructed with zero members raises the fatal empty-group
error regardless of the operator, including operator values outside the
enumeration. -/
theorem C7_group_none_and_empty (fs : List (SpringContext → Bool))
    (ctx : SpringContext) (op : ConditionOp) (h : fs ≠ []) :
    (NewConditions ConditionNone
        (fs.map fun f => (NewFunctionCondition f).Matches)).Matches ctx
      = .ok (fs.all fun f => !f ctx) ∧
    (NewConditions op []).Matches ctx = .error .noCondition := by
  refine ⟨?_, rfl⟩
  simp [NewConditions, conditions.Matches, h, ConditionNone, ConditionOr,
    ConditionAnd, conditionsNone_map_function]

theorem C7_group_none_and_empty_witness :
    (NewConditions ConditionNone
        ([fun _ => false, fun _ => false].map
          fun f => (NewFunctionCondition f).Matches)).Matches testCtx = .ok true ∧
    (NewConditions 7 []).Matches testCtx = .error .noCondition := by
  have h := C7_group_none_and_empty [fun _ => false, fun _ => false] testCtx 7
    (by simp)
  exact ⟨by simpa using h.1, h.2⟩

/-- Claim C8: the absent variants are exact complements of the present
variants: on every context, `PropertyPresent`/`PropertyAbsent` on the same
name return opposite booleans, and so do `BeanPresent`/`BeanAbsent` on the
same selector. -/
theorem C8_present_absent_complement (ctx : SpringContext) (n : String) (s : Value) :
    ∃ b1 b2 : Bool,
      (NewPropertyCondition n).Matches ctx = .ok b1 ∧
      (NewMissingPropertyCondition n).Matches ctx = .ok (!b1) ∧
      (NewBeanCondition s).Matches ctx = .ok b2 ∧
      (NewMissingBeanCondition s).Matches ctx = .ok (!b2) := by
  refine ⟨decide (0 < (ctx.getPrefixProperties n).length), ctx.findBean s,
    rfl, ?_, rfl, rfl⟩
  simp [NewMissingPropertyCondition, missingPropertyCondition.Matches,
    Nat.pos_iff_ne_zero]

/-- Claim C3: `propertyValueCondition.Matches` — an absent property gives
`false` with no error; a non-string expected value compares with native
type-sensitive equality; a string without a `'$'` marker compares as a
string; a string with `'$'` markers has every marker replaced by the
textual form of the looked-up value, the result is `true` iff the external
evaluator's output is the literal text `"true"`, and an evaluator failure
propagates as a fatal error, never converted to `false`. -/
theorem C3_property_value_semantics (E : String → Except String String)
    (ctx : SpringContext) (n : String) (hv : Value) :
    (∀ v, ctx.getDefaultProperty n (.VStr "") = (v, false) →
      (NewPropertyValueCondition n hv).Matches E ctx = .ok false) ∧
    (∀ v, ctx.getDefaultProperty n (.VStr "") = (v, true) →
      ((∀ s, hv ≠ .VStr s) →
        (NewPropertyValueCondition n hv).Matches E ctx = .ok (decide (v = hv))) ∧
      (∀ s, hv = .VStr s → s.contains '$' = false →
        (NewPropertyValueCondition n hv).Matches E ctx = .ok (decide (v = .VStr s))) ∧
      (∀ s, hv = .VStr s → s.contains '$' = true →
        (∀ out, E (s.replace "$" (castToString v)) = .ok out →
          (NewPropertyValueCondition n hv).Matches E ctx
            = .ok (decide (out = "true"))) ∧
        (∀ e, E (s.replace "$" (castToString v)) = .error e →
          (NewPropertyValueCondition n hv).Matches E ctx
            = .error (.evalError e)))) := by
  constructor
  · intro v hva
    simp [NewPropertyValueCondition, propertyValueCondition.Matches, hva]
  · intro v hvp
    refine ⟨?_, ?_, ?_⟩
    · intro hns
      cases hv with
      | VStr s => exact absurd rfl (hns s)
      | VInt m =>
        simp [NewPropertyValueCondition, propertyValueCondition.Matches, hvp]
      | VBool b =>
        simp [NewPropertyValueCondition, propertyValueCondition.Matches, hvp]
    · intro s hs hnc
      subst hs
      simp [NewPropertyValueCondition, propertyValueCondition.Matches, hvp, hnc]
    · intro s hs hc
      subst hs
      constructor
      · intro out hout
        simp [NewPropertyValueCondition, propertyValueCondition.Matches, hvp, hc, hout]
      · intro e he
        simp [NewPropertyValueCondition, propertyValueCondition.Matches, hvp, hc, he]

theorem C3_property_value_semantics_witness :
    (NewPropertyValueCondition "absent" (.VInt 1)).Matches evalOkStub testCtx
      = .ok false ∧
    (NewPropertyValueCondition "threads" (.VInt 8)).Matches evalOkStub testCtx
      = .ok true ∧
    (NewPropertyValueCondition "threads" (.VStr "$>3")).Matches evalOkStub testCtx
      = .ok true ∧
    (NewPropertyValueCondition "threads" (.VStr "$>3")).Matches evalErrStub testCtx
      = .error (.evalError "unsupported") := by
  refine ⟨?_, ?_, ?_, ?_⟩
  · exact (C3_property_value_semantics evalOkStub testCtx "absent" (.VInt 1)).1
      (.VStr "") rfl
  · have h := ((C3_property_value_semantics evalOkStub testCtx "threads"
      (.VInt 8)).2 (.VInt 8) rfl).1 (fun s hs => Value.noConfusion hs)
    simpa using h
  · have h := (((C3_property_value_semantics evalOkStub testCtx "threads"
      (.VStr "$>3")).2 (.VInt 8) rfl).2.2 "$>3" rfl
      (by simp only [String.contains_iff]; decide)).1 "true" rfl
    simpa using h
  · exact (((C3_property_value_semantics evalErrStub testCtx "threads"
      (.VStr "$>3")).2 (.VInt 8) rfl).2.2 "$>3" rfl
      (by simp only [String.contains_iff]; decide)).2 "unsupported" rfl
